import Mathlib

/-!
Verification of the rockusb sans-I/O protocol engine and block-device I/O
adapter (collabora/rockchiprs).  The definitions below are shallow embeddings
of the Rust source:

* `src/rockusb/src/protocol.rs`   — CBW/CSW wire descriptors,
* `src/rockusb/src/operation.rs`  — MSC-style and MaskRom operation state
  machines (pure step-yielding engines),
* `src/rockusb/src/device.rs`     — the sector-buffered `DeviceIOInner`
  read/write/seek adapter.

Machine bytes are modelled as `Nat` (each value kept below 256 by the
encoders / validity predicates), buffers as `List Nat`, and u16/u32 casts as
explicit `% 2 ^ 16` / `% 2 ^ 32` where the source truncates.  Device side
effects (`read_lba` / `write_lba` bulk commands issued by the adapter) are
made explicit as a command log, and the transport filling a `ReadBulk`
buffer is the environment's action, so `ReadBulk` steps carry the requested
length.
-/

namespace Rockusb

/-! ## CRC-16/IBM-3740 (crc crate, `CRC_16_IBM_3740`): poly 0x1021,
init 0xFFFF, no reflection, xorout 0x0000, MSB-first bytewise update. -/

/-- One shift-and-conditionally-xor step of the MSB-first CRC-16 with
polynomial 0x1021, keeping the register within 16 bits. -/
def crcBit (c : Nat) : Nat :=
  if c &&& 0x8000 ≠ 0 then ((c <<< 1) ^^^ 0x1021) &&& 0xFFFF
  else (c <<< 1) &&& 0xFFFF

/-- Feed one byte into the CRC register (xor into the high byte, then eight
bit steps). -/
def crcByte (c b : Nat) : Nat :=
  crcBit (crcBit (crcBit (crcBit (crcBit (crcBit (crcBit (crcBit
    (c ^^^ ((b &&& 0xFF) <<< 8)))))))))

/-- `Digest::update`: fold the bytes into the running register. -/
def crcUpdate (c : Nat) (bs : List Nat) : Nat := bs.foldl crcByte c

/-- Initial register of CRC-16/IBM-3740. -/
def crcInit : Nat := 0xFFFF

/-- `Digest::finalize`: xorout is 0x0000 for IBM-3740. -/
def crcFinalize (c : Nat) : Nat := c ^^^ 0x0000

/-- CRC-16/IBM-3740 of a byte sequence. -/
def crc16 (bs : List Nat) : Nat := crcFinalize (crcUpdate crcInit bs)

/-- The two CRC bytes as written by `MaskRomOperation::step`:
`block[end] = (crc >> 8) as u8; block[end+1] = crc & 0xff` (high byte
first, i.e. big endian). -/
def crcBeBytes (c : Nat) : List Nat := [(c >>> 8) &&& 0xFF, c &&& 0xFF]

/-! ## Operation engine types (`operation.rs`) -/

/-- `UsbOperationError` from `operation.rs`. -/
inductive UsbOperationError where
  | tagMismatch
  | invalidStatusSignature (sig : List Nat)
  | invalidStatusStatus (b : Nat)
  | invalidStatusLength
  | replyParseFailure
  | failedStatus
deriving DecidableEq

instance {ε α : Type} [DecidableEq ε] [DecidableEq α] : DecidableEq (Except ε α)
  | .ok a, .ok b =>
    if h : a = b then .isTrue (by rw [h])
    else .isFalse (by intro hh; injection hh; contradiction)
  | .error a, .error b =>
    if h : a = b then .isTrue (by rw [h])
    else .isFalse (by intro hh; injection hh; contradiction)
  | .ok _, .error _ => .isFalse (by intro hh; exact Except.noConfusion hh)
  | .error _, .ok _ => .isFalse (by intro hh; exact Except.noConfusion hh)

/-- `UsbStep` from `operation.rs`.  `readBulk` borrows a caller buffer in the
source; here it carries the requested length, the environment supplies the
bytes. -/
inductive UsbStep (α : Type) where
  | writeControl (requestType request value index : Nat) (data : List Nat)
  | writeBulk (data : List Nat)
  | readBulk (len : Nat)
  | finished (r : Except UsbOperationError α)
deriving DecidableEq

/-- `MaskRomSteps` from `operation.rs`; `writing` carries the running CRC
digest register. -/
inductive MaskRomSteps where
  | writing (crc : Nat)
  | dummy
  | done
deriving DecidableEq

/-- `MaskRomOperation` from `operation.rs`.  The 4096-byte `block` scratch is
not state: every byte of each emitted chunk is freshly written by the step
that emits it, so chunk contents are recovered from `data`/`written`. -/
structure MaskRomOperation where
  written : Nat
  data : List Nat
  area : Nat
  steps : MaskRomSteps
deriving DecidableEq

/-- `MaskRomOperation::new`. -/
def MaskRomOperation.new (area : Nat) (data : List Nat) : MaskRomOperation :=
  { written := 0, data := data, area := area, steps := .writing crcInit }

/-- `write_area` from `operation.rs`. -/
def write_area (area : Nat) (data : List Nat) : MaskRomOperation :=
  MaskRomOperation.new area data

/-- `OperationSteps::step` for `MaskRomOperation` (operation.rs lines
91-152), as a pure function from state to emitted step and next state. -/
def maskRomStep (op : MaskRomOperation) : UsbStep Unit × MaskRomOperation :=
  match op.steps with
  | .writing c =>
    let chunksize := min 4096 (op.data.length - op.written)
    let chunkData := (op.data.drop op.written).take chunksize
    if chunksize = 4096 then
      (.writeControl 0x40 0xc 0 op.area chunkData,
       { op with written := op.written + chunksize,
                 steps := .writing (crcUpdate c chunkData) })
    else if chunksize = 4095 then
      -- Add extra 0 to avoid splitting crc over two blocks
      (.writeControl 0x40 0xc 0 op.area (chunkData ++ [0]),
       { op with written := op.written + chunksize,
                 steps := .writing (crcUpdate c (chunkData ++ [0])) })
    else
      (.writeControl 0x40 0xc 0 op.area
         (chunkData ++ crcBeBytes (crcFinalize (crcUpdate c chunkData))),
       { op with written := op.written + chunksize,
                 steps := if chunksize + 2 = 4096 then .dummy else .done })
  | .dummy =>
      (.writeControl 0x40 0xc 0 op.area [0], { op with steps := .done })
  | .done => (.finished (.ok ()), { op with steps := .done })

/-- Drive a MaskRom operation, collecting the emitted steps up to and
including the first `finished` (fuel-bounded runner). -/
def maskRomRun : Nat → MaskRomOperation → List (UsbStep Unit)
  | 0, _ => []
  | fuel + 1, op =>
    match maskRomStep op with
    | (.finished r, _) => [.finished r]
    | (s, op2) => s :: maskRomRun fuel op2

/-- Cut a byte stream into consecutive blocks of (up to) 4096 bytes. -/
def chunks4096 (l : List Nat) : List (List Nat) :=
  if h : l = [] then []
  else l.take 4096 :: chunks4096 (l.drop 4096)
termination_by l.length
decreasing_by
  have h0 : 0 < l.length := List.length_pos.mpr h
  simp only [List.length_drop]
  omega

/-- The blob as fed to the CRC and the control writes: an extra 0x00 byte is
appended iff the length is 4095 mod 4096 (the CRC-split-avoidance rule). -/
def maskPadded (blob : List Nat) : List Nat :=
  blob ++ (if blob.length % 4096 = 4095 then [0] else [])

/-- Padded blob followed by the big-endian CRC of the padded blob: the full
byte stream carried by the data-bearing control writes. -/
def maskPayload (blob : List Nat) : List Nat :=
  maskPadded blob ++ crcBeBytes (crc16 (maskPadded blob))

/-- Expected step trace of the MaskRom engine for a blob: the payload cut
into 4096-byte vendor control writes, a dummy one-zero-byte write iff the
payload length is an exact multiple of 4096, then `Finished(Ok(()))`. -/
def maskExpected (area : Nat) (blob : List Nat) : List (UsbStep Unit) :=
  (chunks4096 (maskPayload blob)).map
    (fun ch => UsbStep.writeControl 0x40 0xc 0 area ch)
  ++ (if (blob.length + 2) % 4096 = 0
      then [UsbStep.writeControl 0x40 0xc 0 area [0]] else [])
  ++ [UsbStep.finished (.ok ())]

/-- The full trace of a MaskRom upload; `blob.length + 3` fuel is always
enough to reach `Finished`. -/
def maskTrace (area : Nat) (blob : List Nat) : List (UsbStep Unit) :=
  maskRomRun (blob.length + 3) (write_area area blob)

/-- Data carried by the `writeControl` steps of a trace, in order. -/
def stepDatas : List (UsbStep Unit) → List (List Nat)
  | [] => []
  | .writeControl _ _ _ _ d :: rest => d :: stepDatas rest
  | _ :: rest => stepDatas rest

/-! ### List helpers -/

lemma take_append_exact {α : Type} (l m : List α) : (l ++ m).take l.length = l := by
  induction l with
  | nil => simp
  | cons a l ih => simp [ih]

lemma drop_append_exact {α : Type} (l m : List α) : (l ++ m).drop l.length = m := by
  induction l with
  | nil => simp
  | cons a l ih => simp [ih]

lemma length_drop_eq (data rest : List Nat) (written : Nat)
    (hdrop : data.drop written = rest) : data.length - written = rest.length := by
  have h1 := congrArg List.length hdrop
  simpa using h1

/-! ### chunks4096 facts -/

lemma chunks4096_nil : chunks4096 [] = [] := by
  rw [chunks4096]; simp

lemma chunks4096_of_small (l : List Nat) (h0 : l ≠ []) (h : l.length ≤ 4096) :
    chunks4096 l = [l] := by
  rw [chunks4096, dif_neg h0, List.take_of_length_le h, List.drop_eq_nil_of_le h,
    chunks4096_nil]

lemma chunks4096_append_full (l m : List Nat) (h : l.length = 4096) :
    chunks4096 (l ++ m) = l :: chunks4096 m := by
  have hne : l ++ m ≠ [] := by
    intro hc
    have h2 := congrArg List.length hc
    simp [h] at h2
  have h1 : (l ++ m).take 4096 = l := by rw [← h, take_append_exact]
  have h2 : (l ++ m).drop 4096 = m := by rw [← h, drop_append_exact]
  rw [chunks4096, dif_neg hne, h1, h2]

lemma chunks4096_join_aux : ∀ (n : Nat) (l : List Nat), l.length ≤ n →
    (chunks4096 l).flatten = l := by
  intro n
  induction n with
  | zero =>
    intro l h
    have h0 : l = [] := by cases l <;> simp_all
    simp [h0, chunks4096_nil]
  | succ n ih =>
    intro l h
    by_cases h0 : l = []
    · simp [h0, chunks4096_nil]
    · have hlen : 0 < l.length := List.length_pos.mpr h0
      rw [chunks4096, dif_neg h0]
      have hd : (l.drop 4096).length ≤ n := by
        simp only [List.length_drop]; omega
      simp only [List.flatten_cons]
      rw [ih _ hd, List.take_append_drop]

lemma chunks4096_join (l : List Nat) : (chunks4096 l).flatten = l :=
  chunks4096_join_aux l.length l le_rfl

lemma chunks4096_mem_length_aux : ∀ (n : Nat) (l : List Nat), l.length ≤ n →
    ∀ ch ∈ chunks4096 l, ch.length ≤ 4096 := by
  intro n
  induction n with
  | zero =>
    intro l h ch hch
    have h0 : l = [] := by cases l <;> simp_all
    simp [h0, chunks4096_nil] at hch
  | succ n ih =>
    intro l h ch hch
    by_cases h0 : l = []
    · simp [h0, chunks4096_nil] at hch
    · have hlen : 0 < l.length := List.length_pos.mpr h0
      rw [chunks4096, dif_neg h0] at hch
      rcases List.mem_cons.mp hch with h1 | h1
      · subst h1; simp only [List.length_take]; omega
      · exact ih _ (by simp only [List.length_drop]; omega) ch h1

lemma chunks4096_mem_length (l : List Nat) : ∀ ch ∈ chunks4096 l, ch.length ≤ 4096 :=
  chunks4096_mem_length_aux l.length l le_rfl

/-! ### MaskRom step reductions -/

lemma maskRomStep_writing_full (written area c : Nat) (data rest : List Nat)
    (hdrop : data.drop written = rest) (hr : 4096 ≤ rest.length) :
    maskRomStep ⟨written, data, area, .writing c⟩ =
      (.writeControl 0x40 0xc 0 area (rest.take 4096),
       ⟨written + 4096, data, area, .writing (crcUpdate c (rest.take 4096))⟩) := by
  have hdl : data.length - written = rest.length := length_drop_eq data rest written hdrop
  have hmin : min 4096 (data.length - written) = 4096 := by omega
  simp only [maskRomStep, hmin, hdrop]
  simp

lemma maskRomStep_writing_pad (written area c : Nat) (data rest : List Nat)
    (hdrop : data.drop written = rest) (h95 : rest.length = 4095) :
    maskRomStep ⟨written, data, area, .writing c⟩ =
      (.writeControl 0x40 0xc 0 area (rest ++ [0]),
       ⟨written + 4095, data, area, .writing (crcUpdate c (rest ++ [0]))⟩) := by
  have hdl : data.length - written = rest.length := length_drop_eq data rest written hdrop
  have hmin : min 4096 (data.length - written) = 4095 := by omega
  have htake : rest.take 4095 = rest := by rw [← h95, List.take_length]
  simp only [maskRomStep, hmin, hdrop, htake]
  norm_num

lemma maskRomStep_writing_final (written area c : Nat) (data rest : List Nat)
    (hdrop : data.drop written = rest) (hr : rest.length ≤ 4094) :
    maskRomStep ⟨written, data, area, .writing c⟩ =
      (.writeControl 0x40 0xc 0 area
         (rest ++ crcBeBytes (crcFinalize (crcUpdate c rest))),
       ⟨written + rest.length, data, area,
        if rest.length + 2 = 4096 then .dummy else .done⟩) := by
  have hdl : data.length - written = rest.length := length_drop_eq data rest written hdrop
  have hmin : min 4096 (data.length - written) = rest.length := by omega
  have htake : rest.take rest.length = rest := by simp
  simp only [maskRomStep, hmin, hdrop, htake]
  rw [if_neg (by omega), if_neg (by omega)]

/-! ### MaskRom run reductions -/

lemma maskRomRun_done (fuel area written : Nat) (data : List Nat) (hf : 1 ≤ fuel) :
    maskRomRun fuel ⟨written, data, area, .done⟩ = [.finished (.ok ())] := by
  obtain ⟨f, rfl⟩ : ∃ f, fuel = f + 1 := ⟨fuel - 1, by omega⟩
  simp [maskRomRun, maskRomStep]

lemma maskRomRun_dummy (fuel area written : Nat) (data : List Nat) (hf : 2 ≤ fuel) :
    maskRomRun fuel ⟨written, data, area, .dummy⟩ =
      [.writeControl 0x40 0xc 0 area [0], .finished (.ok ())] := by
  obtain ⟨f, rfl⟩ : ∃ f, fuel = f + 2 := ⟨fuel - 2, by omega⟩
  rw [maskRomRun]
  simp only [maskRomStep]
  rw [maskRomRun_done (f + 1) area written data (by omega)]

lemma maskRomRun_writing_final (rest : List Nat) (hr : rest.length ≤ 4094)
    (fuel written area c : Nat) (data : List Nat)
    (hdrop : data.drop written = rest) (hfuel : 3 ≤ fuel) :
    maskRomRun fuel ⟨written, data, area, .writing c⟩ =
      UsbStep.writeControl 0x40 0xc 0 area
          (rest ++ crcBeBytes (crcFinalize (crcUpdate c rest)))
      :: ((if (rest.length + 2) % 4096 = 0
           then [UsbStep.writeControl 0x40 0xc 0 area [0]] else [])
          ++ [UsbStep.finished (.ok ())]) := by
  obtain ⟨f, rfl⟩ : ∃ f, fuel = f + 1 := ⟨fuel - 1, by omega⟩
  rw [maskRomRun, maskRomStep_writing_final written area c data rest hdrop hr]
  by_cases h46 : rest.length + 2 = 4096
  · rw [if_pos h46]
    have hmod : (rest.length + 2) % 4096 = 0 := by omega
    simp only []
    rw [maskRomRun_dummy f area (written + rest.length) data (by omega), if_pos hmod]
    rfl
  · rw [if_neg h46]
    have hmod : (rest.length + 2) % 4096 ≠ 0 := by omega
    simp only []
    rw [maskRomRun_done f area (written + rest.length) data (by omega), if_neg hmod]
    rfl

lemma maskRomRun_step_cons (fuel : Nat) (op op2 : MaskRomOperation)
    (rt rq v ix : Nat) (d : List Nat)
    (h : maskRomStep op = (.writeControl rt rq v ix d, op2)) :
    maskRomRun (fuel + 1) op = .writeControl rt rq v ix d :: maskRomRun fuel op2 := by
  rw [maskRomRun, h]

lemma maskRomRun_writing (n : Nat) : ∀ (rest : List Nat), rest.length ≤ n →
    ∀ (fuel written area c : Nat) (data : List Nat),
      data.drop written = rest → rest.length + 3 ≤ fuel →
      maskRomRun fuel ⟨written, data, area, .writing c⟩ =
        (chunks4096 (maskPadded rest
            ++ crcBeBytes (crcFinalize (crcUpdate c (maskPadded rest))))).map
          (fun ch => UsbStep.writeControl 0x40 0xc 0 area ch)
        ++ (if (rest.length + 2) % 4096 = 0
            then [UsbStep.writeControl 0x40 0xc 0 area [0]] else [])
        ++ [UsbStep.finished (.ok ())] := by
  induction n using Nat.strong_induction_on with
  | _ n ih =>
  intro rest hn fuel written area c data hdrop hfuel
  by_cases hsmall : rest.length ≤ 4094
  · -- terminal chunk: data ++ crc, then dummy iff the chunk is full
    have hpad : maskPadded rest = rest := by
      unfold maskPadded
      rw [if_neg (by omega : ¬ rest.length % 4096 = 4095)]
      simp
    rw [maskRomRun_writing_final rest hsmall fuel written area c data hdrop (by omega),
      hpad, chunks4096_of_small _ (by simp [crcBeBytes]) (by simp [crcBeBytes]; omega)]
    simp
  · by_cases h95 : rest.length = 4095
    · -- CRC-split avoidance: 4095 data bytes plus a padding zero
      obtain ⟨f, rfl⟩ : ∃ f, fuel = f + 1 := ⟨fuel - 1, by omega⟩
      rw [maskRomRun_step_cons f _ _ _ _ _ _ _
        (maskRomStep_writing_pad written area c data rest hdrop h95)]
      have hdrop2 : data.drop (written + 4095) = [] := by
        have h1 : (data.drop written).drop 4095 = data.drop (written + 4095) := by
          rw [List.drop_drop]
        rw [← h1, hdrop, List.drop_eq_nil_of_le (by omega)]
      rw [maskRomRun_writing_final [] (by simp) f (written + 4095) area
        (crcUpdate c (rest ++ [0])) data hdrop2 (by omega)]
      have hpad : maskPadded rest = rest ++ [0] := by
        unfold maskPadded
        rw [if_pos (by omega : rest.length % 4096 = 4095)]
      rw [hpad, chunks4096_append_full _ _ (by simp [h95]),
        chunks4096_of_small _ (by simp [crcBeBytes]) (by simp [crcBeBytes])]
      have hdum : ¬ (rest.length + 2) % 4096 = 0 := by omega
      simp [hdum, crcUpdate, maskPadded]
    · -- full 4096-byte block, recurse on the remainder
      have hbig : 4096 ≤ rest.length := by omega
      obtain ⟨f, rfl⟩ : ∃ f, fuel = f + 1 := ⟨fuel - 1, by omega⟩
      rw [maskRomRun_step_cons f _ _ _ _ _ _ _
        (maskRomStep_writing_full written area c data rest hdrop hbig)]
      have hdrop2 : data.drop (written + 4096) = rest.drop 4096 := by
        have h1 : (data.drop written).drop 4096 = data.drop (written + 4096) := by
          rw [List.drop_drop]
        rw [← h1, hdrop]
      have hlen2 : (rest.drop 4096).length = rest.length - 4096 := by simp
      rw [ih (n - 1) (by omega) (rest.drop 4096) (by omega) f (written + 4096) area
        (crcUpdate c (rest.take 4096)) data hdrop2 (by omega)]
      -- reassemble: the first block splits off the padded stream
      have hpads : (if rest.length % 4096 = 4095 then [0] else ([] : List Nat))
          = (if (rest.drop 4096).length % 4096 = 4095 then [0] else []) := by
        by_cases hx : rest.length % 4096 = 4095
        · rw [if_pos hx, if_pos (by rw [hlen2]; omega)]
        · rw [if_neg hx, if_neg (by rw [hlen2]; omega)]
      have hsplit : maskPadded rest = rest.take 4096 ++ maskPadded (rest.drop 4096) := by
        unfold maskPadded
        rw [hpads, ← List.append_assoc, List.take_append_drop]
      have hcrc : crcUpdate c (maskPadded rest)
          = crcUpdate (crcUpdate c (rest.take 4096)) (maskPadded (rest.drop 4096)) := by
        rw [hsplit]; simp [crcUpdate, List.foldl_append]
      have htk : (rest.take 4096).length = 4096 := by
        simp only [List.length_take]; omega
      have hdums : (if (rest.length + 2) % 4096 = 0
            then [(UsbStep.writeControl 0x40 0xc 0 area [0] : UsbStep Unit)] else [])
          = (if ((rest.drop 4096).length + 2) % 4096 = 0
            then [(UsbStep.writeControl 0x40 0xc 0 area [0] : UsbStep Unit)] else []) := by
        by_cases hx : (rest.length + 2) % 4096 = 0
        · rw [if_pos hx, if_pos (by rw [hlen2]; omega)]
        · rw [if_neg hx, if_neg (by rw [hlen2]; omega)]
      rw [hcrc, hsplit, List.append_assoc (rest.take 4096) (maskPadded (rest.drop 4096)),
        chunks4096_append_full _ _ htk, hdums]
      simp

lemma stepDatas_append (a b : List (UsbStep Unit)) :
    stepDatas (a ++ b) = stepDatas a ++ stepDatas b := by
  induction a with
  | nil => rfl
  | cons s rest ih => cases s <;> simp [stepDatas, ih]

lemma stepDatas_map_writeControl (area : Nat) (l : List (List Nat)) :
    stepDatas (l.map (fun ch => UsbStep.writeControl 0x40 0xc 0 area ch)) = l := by
  induction l with
  | nil => rfl
  | cons ch rest ih => simp [stepDatas, ih]

/-- Claim C1: for every blob and area index, the MaskRom engine's step trace
consists of `WriteControl` steps with request type 0x40, request 0x0C, value
0, index = area, each carrying at most 4096 bytes; the concatenation of
their data is the blob (with one extra 0x00 byte appended iff
`N % 4096 = 4095`) followed by the big-endian CRC-16/IBM-3740 digest of that
same padded blob, followed by a single 0x00 byte iff the chunk carrying the
CRC was exactly 4096 bytes (equivalently iff `(N + 2) % 4096 = 0`); the
final step is `Finished(Ok(()))`. -/
theorem c1_maskrom_upload_trace (area : Nat) (blob : List Nat) :
    maskTrace area blob = maskExpected area blob ∧
    (stepDatas (maskTrace area blob)).flatten
      = maskPadded blob ++ crcBeBytes (crc16 (maskPadded blob))
        ++ (if (blob.length + 2) % 4096 = 0 then [0] else []) ∧
    (maskTrace area blob).getLast? = some (.finished (.ok ())) ∧
    (∀ s ∈ (maskTrace area blob).dropLast,
      ∃ d, s = UsbStep.writeControl 0x40 0xc 0 area d ∧ d.length ≤ 4096) := by
  have htr : maskTrace area blob = maskExpected area blob := by
    unfold maskTrace write_area MaskRomOperation.new
    rw [maskRomRun_writing blob.length blob le_rfl (blob.length + 3) 0 area crcInit
      blob (by simp) (by omega)]
    unfold maskExpected maskPayload crc16
    simp
  refine ⟨htr, ?_, ?_, ?_⟩
  · rw [htr]
    unfold maskExpected
    by_cases hx : (blob.length + 2) % 4096 = 0
    · rw [if_pos hx, if_pos hx, stepDatas_append, stepDatas_append,
        stepDatas_map_writeControl]
      have h1 : stepDatas [UsbStep.writeControl 0x40 0xc 0 area [0]] = [[0]] := rfl
      have h2 : stepDatas [UsbStep.finished (.ok ())] = [] := rfl
      rw [h1, h2, List.append_nil, List.flatten_append, chunks4096_join]
      unfold maskPayload
      simp
    · rw [if_neg hx, if_neg hx, stepDatas_append, stepDatas_append,
        stepDatas_map_writeControl]
      have h1 : stepDatas ([] : List (UsbStep Unit)) = [] := rfl
      have h2 : stepDatas [UsbStep.finished (.ok ())] = [] := rfl
      rw [h1, h2, List.append_nil, List.append_nil, chunks4096_join]
      unfold maskPayload
      simp
  · rw [htr]
    unfold maskExpected
    rw [List.getLast?_concat]
  · rw [htr]
    intro s hs
    unfold maskExpected at hs
    rw [List.dropLast_concat] at hs
    rcases List.mem_append.mp hs with h1 | h1
    · obtain ⟨ch, hch, rfl⟩ := List.mem_map.mp h1
      exact ⟨ch, rfl, chunks4096_mem_length _ ch hch⟩
    · by_cases hx : (blob.length + 2) % 4096 = 0
      · rw [if_pos hx] at h1
        rcases List.mem_singleton.mp h1 with rfl
        exact ⟨[0], rfl, by simp⟩
      · rw [if_neg hx] at h1
        simp at h1

/-! ## Wire descriptors (`protocol.rs`) -/

/-- Big-endian byte decomposition of a u32 (`BufMut::put_u32`). -/
def be32Bytes (v : Nat) : List Nat :=
  [v / 16777216 % 256, v / 65536 % 256, v / 256 % 256, v % 256]

/-- Little-endian byte decomposition of a u32 (`BufMut::put_u32_le`). -/
def le32Bytes (v : Nat) : List Nat :=
  [v % 256, v / 256 % 256, v / 65536 % 256, v / 16777216 % 256]

/-- Big-endian byte decomposition of a u16 (`BufMut::put_u16`). -/
def be16Bytes (v : Nat) : List Nat := [v / 256 % 256, v % 256]

/-- Big-endian recomposition of four bytes (`Buf::get_u32`). -/
def be32Of (a b c d : Nat) : Nat := ((a * 256 + b) * 256 + c) * 256 + d

/-- Little-endian recomposition of four bytes (`Buf::get_u32_le`). -/
def le32Of (a b c d : Nat) : Nat := ((d * 256 + c) * 256 + b) * 256 + a

/-- Big-endian recomposition of two bytes (`Buf::get_u16`). -/
def be16Of (a b : Nat) : Nat := a * 256 + b

/-- `Direction` from `protocol.rs` (`In = 0x80`, `Out = 0x0`). -/
inductive Direction where
  | In
  | Out
deriving DecidableEq

/-- The `repr(u8)` value of a `Direction`. -/
def Direction.toByte : Direction → Nat
  | .In => 0x80
  | .Out => 0

/-- `Direction::try_from` (num_enum `TryFromPrimitive`). -/
def Direction.fromByte (b : Nat) : Except Nat Direction :=
  if b = 0x80 then .ok .In
  else if b = 0 then .ok .Out
  else .error b

/-- `CommandCode` from `protocol.rs`. -/
inductive CommandCode where
  | TestUnitReady
  | ReadFlashId
  | TestBadBlock
  | ReadSector
  | WriteSector
  | EraseNormal
  | EraseForce
  | ReadLBA
  | WriteLBA
  | EraseSystemDisk
  | ReadSDram
  | WriteSDram
  | ExecuteSDram
  | ReadFlashInfo
  | ReadChipInfo
  | SetResetFlag
  | WriteEFuse
  | ReadEFuse
  | ReadSPIFlash
  | WriteSPIFlash
  | WriteNewEfuse
  | ReadNewEfuse
  | EraseLBA
  | ReadCapability
  | DeviceReset
deriving DecidableEq

/-- The `repr(u8)` value of a `CommandCode`. -/
def CommandCode.toByte : CommandCode → Nat
  | .TestUnitReady => 0x00
  | .ReadFlashId => 0x01
  | .TestBadBlock => 0x03
  | .ReadSector => 0x04
  | .WriteSector => 0x05
  | .EraseNormal => 0x06
  | .EraseForce => 0x0B
  | .ReadLBA => 0x14
  | .WriteLBA => 0x15
  | .EraseSystemDisk => 0x16
  | .ReadSDram => 0x17
  | .WriteSDram => 0x18
  | .ExecuteSDram => 0x19
  | .ReadFlashInfo => 0x1A
  | .ReadChipInfo => 0x1B
  | .SetResetFlag => 0x1E
  | .WriteEFuse => 0x1F
  | .ReadEFuse => 0x20
  | .ReadSPIFlash => 0x21
  | .WriteSPIFlash => 0x22
  | .WriteNewEfuse => 0x23
  | .ReadNewEfuse => 0x24
  | .EraseLBA => 0x25
  | .ReadCapability => 0xAA
  | .DeviceReset => 0xFF

/-- `CommandCode::try_from` (num_enum `TryFromPrimitive`). -/
def CommandCode.fromByte (b : Nat) : Option CommandCode :=
  if b = 0x00 then some .TestUnitReady
  else if b = 0x01 then some .ReadFlashId
  else if b = 0x03 then some .TestBadBlock
  else if b = 0x04 then some .ReadSector
  else if b = 0x05 then some .WriteSector
  else if b = 0x06 then some .EraseNormal
  else if b = 0x0B then some .EraseForce
  else if b = 0x14 then some .ReadLBA
  else if b = 0x15 then some .WriteLBA
  else if b = 0x16 then some .EraseSystemDisk
  else if b = 0x17 then some .ReadSDram
  else if b = 0x18 then some .WriteSDram
  else if b = 0x19 then some .ExecuteSDram
  else if b = 0x1A then some .ReadFlashInfo
  else if b = 0x1B then some .ReadChipInfo
  else if b = 0x1E then some .SetResetFlag
  else if b = 0x1F then some .WriteEFuse
  else if b = 0x20 then some .ReadEFuse
  else if b = 0x21 then some .ReadSPIFlash
  else if b = 0x22 then some .WriteSPIFlash
  else if b = 0x23 then some .WriteNewEfuse
  else if b = 0x24 then some .ReadNewEfuse
  else if b = 0x25 then some .EraseLBA
  else if b = 0xAA then some .ReadCapability
  else if b = 0xFF then some .DeviceReset
  else none

/-- `Status` from `protocol.rs` (`SUCCESS = 0`, `FAILED = 1`). -/
inductive Status where
  | SUCCESS
  | FAILED
deriving DecidableEq

/-- The `repr(u8)` value of a `Status`. -/
def Status.toByte : Status → Nat
  | .SUCCESS => 0
  | .FAILED => 1

/-- `CommandStatusParseError` from `protocol.rs`. -/
inductive CommandStatusParseError where
  | invalidSignature (sig : List Nat)
  | invalidLength (len : Nat)
  | invalidStatus (b : Nat)
deriving DecidableEq

def COMMAND_STATUS_BYTES : Nat := 13

/-- `CommandStatus` (CSW) from `protocol.rs`. -/
structure CommandStatus where
  tag : Nat
  residue : Nat
  status : Status
deriving DecidableEq

/-- Field bounds implied by the Rust types (`tag: u32`, `residue: u32`). -/
abbrev CommandStatus.wf (c : CommandStatus) : Prop :=
  c.tag < 2 ^ 32 ∧ c.residue < 2 ^ 32

/-- `CommandStatus::to_bytes`: `"USBS"` | tag be u32 | residue le u32 |
status u8. -/
def CommandStatus.to_bytes (c : CommandStatus) : List Nat :=
  [0x55, 0x53, 0x42, 0x53] ++ be32Bytes c.tag ++ le32Bytes c.residue
    ++ [c.status.toByte]

/-- `CommandStatus::from_bytes`: length guard, signature check, big-endian
tag, little-endian residue, status byte in `{0, 1}`. -/
def CommandStatus.from_bytes (bytes : List Nat) :
    Except CommandStatusParseError CommandStatus :=
  if bytes.length < COMMAND_STATUS_BYTES then .error (.invalidLength bytes.length)
  else
    match bytes with
    | m0 :: m1 :: m2 :: m3 :: t0 :: t1 :: t2 :: t3 :: r0 :: r1 :: r2 :: r3 :: s :: _ =>
      if m0 = 0x55 ∧ m1 = 0x53 ∧ m2 = 0x42 ∧ m3 = 0x53 then
        if s = 0 then .ok ⟨be32Of t0 t1 t2 t3, le32Of r0 r1 r2 r3, .SUCCESS⟩
        else if s = 1 then .ok ⟨be32Of t0 t1 t2 t3, le32Of r0 r1 r2 r3, .FAILED⟩
        else .error (.invalidStatus s)
      else .error (.invalidSignature [m0, m1, m2, m3])
    | _ => .error (.invalidLength bytes.length)

/-- `CommandBlockParseError` from `protocol.rs`. -/
inductive CommandBlockParseError where
  | invalidSignature (sig : List Nat)
  | unknownCommandCode (b : Nat)
  | unknownFlags (b : Nat)
  | invalidLength (len : Nat)
deriving DecidableEq

def COMMAND_BLOCK_BYTES : Nat := 31

/-- `CommandBlock` (CBW) from `protocol.rs`. -/
structure CommandBlock where
  tag : Nat
  transfer_length : Nat
  flags : Direction
  lun : Nat
  cdb_length : Nat
  cd_code : CommandCode
  cd_opcode : Nat
  cd_address : Nat
  cd_length : Nat
deriving DecidableEq

/-- Field bounds implied by the Rust types (u32 / u8 / u16 fields). -/
abbrev CommandBlock.wf (c : CommandBlock) : Prop :=
  c.tag < 2 ^ 32 ∧ c.transfer_length < 2 ^ 32 ∧ c.lun < 256 ∧
  c.cdb_length < 256 ∧ c.cd_opcode < 256 ∧ c.cd_address < 2 ^ 32 ∧
  c.cd_length < 2 ^ 16

/-- The 24 bytes actually written by `CommandBlock::to_bytes`: `"USBC"` |
tag be u32 | transfer_length le u32 | flags u8 | lun u8 | cdb_length u8 |
cd_code u8 | cd_opcode u8 | cd_address be u32 | 0x00 | cd_length be u16. -/
def cbwFields (c : CommandBlock) : List Nat :=
  [0x55, 0x53, 0x42, 0x43] ++ be32Bytes c.tag ++ le32Bytes c.transfer_length
    ++ [c.flags.toByte, c.lun, c.cdb_length, c.cd_code.toByte, c.cd_opcode]
    ++ be32Bytes c.cd_address ++ [0] ++ be16Bytes c.cd_length

/-- `CommandBlock::to_bytes(&self, bytes: &mut [u8]) -> usize`: writes the
24 field bytes at the start of the caller's buffer, leaves the rest of the
buffer untouched, and returns `COMMAND_BLOCK_BYTES` (31).  The result is
the returned length paired with the buffer contents afterwards. -/
def CommandBlock.to_bytes (c : CommandBlock) (bytes : List Nat) : Nat × List Nat :=
  (COMMAND_BLOCK_BYTES, cbwFields c ++ bytes.drop 24)

/-- The 31 wire bytes of a CBW: `to_bytes` into the fresh zero-initialised
31-byte scratch every `UsbOperation` allocates, truncated to the returned
length. -/
def CommandBlock.encoded (c : CommandBlock) : List Nat :=
  ((c.to_bytes (List.replicate 31 0)).2).take (c.to_bytes (List.replicate 31 0)).1

/-- `CommandBlock::from_bytes`: length guard, signature check, then the
framed reads in source order, rejecting unknown direction or command-code
bytes. -/
def CommandBlock.from_bytes (bytes : List Nat) :
    Except CommandBlockParseError CommandBlock :=
  if bytes.length < COMMAND_BLOCK_BYTES then .error (.invalidLength bytes.length)
  else
    match bytes with
    | m0 :: m1 :: m2 :: m3 :: t0 :: t1 :: t2 :: t3 :: l0 :: l1 :: l2 :: l3
        :: fl :: lun :: cdb :: cc :: co :: a0 :: a1 :: a2 :: a3 :: _sk
        :: d0 :: d1 :: _ =>
      if m0 = 0x55 ∧ m1 = 0x53 ∧ m2 = 0x42 ∧ m3 = 0x43 then
        match Direction.fromByte fl with
        | .error b => .error (.unknownFlags b)
        | .ok flags =>
          match CommandCode.fromByte cc with
          | none => .error (.unknownCommandCode cc)
          | some code =>
            .ok ⟨be32Of t0 t1 t2 t3, le32Of l0 l1 l2 l3, flags, lun, cdb,
                 code, co, be32Of a0 a1 a2 a3, be16Of d0 d1⟩
      else .error (.invalidSignature [m0, m1, m2, m3])
    | _ => .error (.invalidLength bytes.length)

/-! ### CommandBlock constructors (tag randomness externalised: the source
draws `fastrand::u32(..)`, here the tag is a parameter). -/

/-- `CommandBlock::chip_info`. -/
def CommandBlock.chip_info (tag : Nat) : CommandBlock :=
  ⟨tag, 16, .In, 0, 0x6, .ReadChipInfo, 0, 0, 0⟩

/-- `CommandBlock::read_lba`. -/
def CommandBlock.read_lba (tag start_sector sectors : Nat) : CommandBlock :=
  ⟨tag, sectors * 512, .In, 0, 0xa, .ReadLBA, 0, start_sector, sectors⟩

/-- `CommandBlock::write_lba`. -/
def CommandBlock.write_lba (tag start_sector sectors : Nat) : CommandBlock :=
  ⟨tag, sectors * 512, .Out, 0, 0xa, .WriteLBA, 0, start_sector, sectors⟩

lemma commandCode_fromByte_of_toByte (cc : CommandCode) :
    CommandCode.fromByte cc.toByte = some cc := by
  cases cc <;> rfl

lemma direction_fromByte_of_toByte (d : Direction) :
    Direction.fromByte d.toByte = .ok d := by
  cases d <;> rfl

lemma cbwFields_length (c : CommandBlock) : (cbwFields c).length = 24 := by
  simp [cbwFields, be32Bytes, le32Bytes, be16Bytes]

lemma CommandBlock.encoded_eq (c : CommandBlock) :
    c.encoded = cbwFields c ++ List.replicate 7 0 := by
  unfold CommandBlock.encoded CommandBlock.to_bytes
  have h1 : (List.replicate 31 (0 : Nat)).drop 24 = List.replicate 7 0 := rfl
  rw [h1]
  apply List.take_of_length_le
  simp [cbwFields_length, COMMAND_BLOCK_BYTES]

/-- Claim C5: encode/decode round-trips — decoding the 31 bytes produced by
encoding a valid `CommandBlock` returns exactly that block, and decoding the
13 bytes produced by encoding a valid `CommandStatus` returns exactly that
status. -/
theorem c5_roundtrip (c : CommandBlock) (s : CommandStatus)
    (hc : c.wf) (hs : s.wf) :
    CommandBlock.from_bytes c.encoded = .ok c ∧
    CommandStatus.from_bytes s.to_bytes = .ok s := by
  obtain ⟨hc1, hc2, hc3, hc4, hc5, hc6, hc7⟩ := hc
  obtain ⟨hs1, hs2⟩ := hs
  constructor
  · obtain ⟨t, tl, fl, lun, cdb, code, co, addr, clen⟩ := c
    dsimp only at hc1 hc2 hc3 hc4 hc5 hc6 hc7
    rw [CommandBlock.encoded_eq]
    have h2 : List.replicate 7 (0 : Nat) = [0, 0, 0, 0, 0, 0, 0] := rfl
    simp only [cbwFields, be32Bytes, le32Bytes, be16Bytes, h2,
      List.cons_append, List.nil_append, CommandBlock.from_bytes]
    rw [if_neg (by simp [COMMAND_BLOCK_BYTES])]
    rw [if_pos (by norm_num)]
    rw [direction_fromByte_of_toByte, commandCode_fromByte_of_toByte]
    simp only [Except.ok.injEq, CommandBlock.mk.injEq]
    refine ⟨?_, ?_, trivial, trivial, trivial, trivial, trivial, ?_, ?_⟩ <;>
      simp only [be32Of, be16Of, le32Of] <;> omega
  · obtain ⟨t, r, st⟩ := s
    dsimp only at hs1 hs2
    cases st <;>
    · simp only [CommandStatus.to_bytes, CommandStatus.from_bytes, be32Bytes,
        le32Bytes, Status.toByte, List.cons_append, List.nil_append]
      norm_num [COMMAND_STATUS_BYTES, CommandStatus.mk.injEq]
      constructor <;> simp only [be32Of, le32Of] <;> omega

/-- Claim C6 (counterexample): the encoder does NOT produce 31 bytes that
are exhausted by the listed field layout — the enumerated fields occupy only
24 bytes, while the produced CBW is 31 bytes long, so for the concrete block
`chip_info` with tag 3 the produced bytes differ from the enumerated field
bytes. -/
theorem c6_cbw_layout_counterexample :
    (CommandBlock.chip_info 3).encoded.length = 31 ∧
    (cbwFields (CommandBlock.chip_info 3)).length = 24 ∧
    (CommandBlock.chip_info 3).encoded ≠ cbwFields (CommandBlock.chip_info 3) := by
  refine ⟨by decide, by decide, by decide⟩

/-- Claim C6 (amended): the CBW encoder produces exactly 31 bytes: the 24
field bytes `"USBC"` | tag be u32 | transfer_length le u32 | direction byte
(0x80 In / 0x00 Out) | lun | cdb_length | command-code byte | cd_opcode |
cd_address be u32 | 0x00 | cd_length be u16, followed by the 7 remaining
bytes of the zero-initialised 31-byte scratch. -/
theorem c6_cbw_layout (c : CommandBlock) :
    c.encoded.length = 31 ∧
    c.encoded =
      [0x55, 0x53, 0x42, 0x43,
       c.tag / 2 ^ 24 % 256, c.tag / 2 ^ 16 % 256, c.tag / 2 ^ 8 % 256,
       c.tag % 256,
       c.transfer_length % 256, c.transfer_length / 2 ^ 8 % 256,
       c.transfer_length / 2 ^ 16 % 256, c.transfer_length / 2 ^ 24 % 256,
       (if c.flags = .In then 0x80 else 0x00), c.lun, c.cdb_length,
       c.cd_code.toByte, c.cd_opcode,
       c.cd_address / 2 ^ 24 % 256, c.cd_address / 2 ^ 16 % 256,
       c.cd_address / 2 ^ 8 % 256, c.cd_address % 256,
       0x00, c.cd_length / 2 ^ 8 % 256, c.cd_length % 256]
      ++ List.replicate 7 0 := by
  constructor
  · rw [CommandBlock.encoded_eq]
    simp [cbwFields_length]
  · rw [CommandBlock.encoded_eq]
    cases hd : c.flags <;>
      simp [cbwFields, be32Bytes, le32Bytes, be16Bytes, hd, Direction.toByte]

/-! ## MSC-style operation state machine (`operation.rs`) -/

/-- `Operation` phase marker from `operation.rs`. -/
inductive Operation where
  | commandBlock
  | io
  | commandStatus
  | finish
deriving DecidableEq

/-- `IOBytes` from `operation.rs`: the payload binding (16-byte inband
scratch, borrowed read slice, borrowed write slice), holding the current
bytes. -/
inductive IOBytes where
  | inband (bytes : List Nat)
  | read (bytes : List Nat)
  | write (bytes : List Nat)
deriving DecidableEq

/-- `UsbOperation` from `operation.rs` (the `PhantomData` result marker is
carried by the `fromOp` parser passed to `step`). -/
structure UsbOperation where
  command : CommandBlock
  command_bytes : List Nat
  data : IOBytes
  next : Operation
deriving DecidableEq

/-- `UsbOperation::new`: fresh zeroed 31-byte scratch, 16-byte inband
payload, initial phase `CommandBlock`. -/
def UsbOperation.new (command : CommandBlock) : UsbOperation :=
  ⟨command, List.replicate 31 0, .inband (List.replicate 16 0), .commandBlock⟩

/-- `UsbOperation::new_write`. -/
def UsbOperation.new_write (command : CommandBlock) (data : List Nat) : UsbOperation :=
  ⟨command, List.replicate 31 0, .write data, .commandBlock⟩

/-- `UsbOperation::new_read`. -/
def UsbOperation.new_read (command : CommandBlock) (data : List Nat) : UsbOperation :=
  ⟨command, List.replicate 31 0, .read data, .commandBlock⟩

/-- `UsbOperation::io_data`: the payload bytes whatever the binding. -/
def io_data (op : UsbOperation) : List Nat :=
  match op.data with
  | .inband d => d
  | .read d => d
  | .write d => d

/-- `From<CommandStatusParseError> for UsbOperationError`. -/
def statusErrToOpErr : CommandStatusParseError → UsbOperationError
  | .invalidSignature s => .invalidStatusSignature s
  | .invalidLength _ => .invalidStatusLength
  | .invalidStatus s => .invalidStatusStatus s

/-- `OperationSteps::step` for `UsbOperation` (operation.rs lines 241-286).
The result-type parser `fromOp` stands for `T::from_operation`.  Note the
source swaps `self.next` against a fresh `Operation::CommandBlock`, so the
`Finish` branch leaves the phase reset to `CommandBlock`. -/
def UsbOperation.step {α : Type}
    (fromOp : List Nat → CommandStatus → Except UsbOperationError α)
    (op : UsbOperation) : UsbStep α × UsbOperation :=
  match op.next with
  | .commandBlock =>
    let r := op.command.to_bytes op.command_bytes
    (.writeBulk (r.2.take r.1), { op with command_bytes := r.2, next := .io })
  | .io =>
    match op.command.flags with
    | .Out => (.writeBulk ((io_data op).take op.command.transfer_length),
               { op with next := .commandStatus })
    | .In => (.readBulk op.command.transfer_length,
              { op with next := .commandStatus })
  | .commandStatus => (.readBulk COMMAND_STATUS_BYTES, { op with next := .finish })
  | .finish =>
    (.finished
      (match CommandStatus.from_bytes op.command_bytes with
       | .error e => .error (statusErrToOpErr e)
       | .ok csw =>
         if csw.status = .FAILED then .error .failedStatus
         else if csw.tag = op.command.tag then
           fromOp ((io_data op).take op.command.transfer_length) csw
         else .error .tagMismatch),
     { op with next := .commandBlock })

/-- `ChipInfo` from `protocol.rs` (16 opaque bytes). -/
structure ChipInfo where
  bytes : List Nat
deriving DecidableEq

/-- `ChipInfo::from_operation`: `io.try_into()` into `[u8; 16]`, i.e. fails
unless exactly 16 bytes. -/
def chipInfoFromOp (io : List Nat) (_csw : CommandStatus) :
    Except UsbOperationError ChipInfo :=
  if io.length = 16 then .ok ⟨io⟩ else .error .replyParseFailure

/-- `Transferred::from_operation`: `totransfer = io.len() as u32` (the slice
length is the transfer_length, a u32, so the cast is lossless);
`residue > totransfer` is a `ReplyParseFailure`, otherwise
`Transferred(totransfer - residue)`. -/
def transferredFromOp (io : List Nat) (csw : CommandStatus) :
    Except UsbOperationError Nat :=
  if io.length < csw.residue then .error .replyParseFailure
  else .ok (io.length - csw.residue)

/-- `operation::chip_info` (tag externalised). -/
def chip_info (tag : Nat) : UsbOperation :=
  UsbOperation.new (CommandBlock.chip_info tag)

/-- `operation::read_lba`: asserts the buffer is sector aligned (modelled as
`none`), then builds the CBW with sector count `(read.len() / 512) as u16`,
i.e. truncated mod 2^16. -/
def read_lba (tag start_sector : Nat) (read : List Nat) : Option UsbOperation :=
  if read.length % 512 = 0 then
    some (UsbOperation.new_read
      (CommandBlock.read_lba tag start_sector (read.length / 512 % 65536)) read)
  else none

/-- `operation::write_lba`: asserts the buffer is sector aligned (modelled
as `none`), then builds the CBW with sector count
`(write.len() / 512) as u16`, i.e. truncated mod 2^16. -/
def write_lba (tag start_sector : Nat) (write : List Nat) : Option UsbOperation :=
  if write.length % 512 = 0 then
    some (UsbOperation.new_write
      (CommandBlock.write_lba tag start_sector (write.length / 512 % 65536)) write)
  else none

/-- Witness for C5 at the concrete block and status of the source's own
round-trip tests. -/
theorem c5_roundtrip_witness :
    CommandBlock.from_bytes
        (CommandBlock.mk 0xdead 0x11223344 .Out 0x66 0x77 .EraseForce 0x10
          0x11223344 0x5566).encoded
      = .ok (CommandBlock.mk 0xdead 0x11223344 .Out 0x66 0x77 .EraseForce 0x10
          0x11223344 0x5566) ∧
    CommandStatus.from_bytes (CommandStatus.mk 0x11223344 0x55667788 .SUCCESS).to_bytes
      = .ok (CommandStatus.mk 0x11223344 0x55667788 .SUCCESS) :=
  c5_roundtrip
    (CommandBlock.mk 0xdead 0x11223344 .Out 0x66 0x77 .EraseForce 0x10
      0x11223344 0x5566)
    (CommandStatus.mk 0x11223344 0x55667788 .SUCCESS)
    (by decide) (by decide)

/-- Concrete operation at `Finish` whose scratch holds a parsed CSW with tag
6 and status Failed while the command's tag is 5. -/
def c3op : UsbOperation :=
  { command := CommandBlock.chip_info 5,
    command_bytes := CommandStatus.to_bytes ⟨6, 0, .FAILED⟩ ++ List.replicate 18 0,
    data := .inband (List.replicate 16 0),
    next := .finish }

/-- Claim C3 (counterexample): with a mismatched tag AND status = Failed the
step emits `Finished(Err(FailedStatus))`, not `Finished(Err(TagMismatch))` —
the source checks `csw.status == FAILED` before comparing tags, so the claim
"TagMismatch for all values of the status field" fails. -/
theorem c3_tag_mismatch_counterexample :
    CommandStatus.from_bytes c3op.command_bytes = .ok ⟨6, 0, .FAILED⟩ ∧
    c3op.command.tag = 5 ∧
    (UsbOperation.step chipInfoFromOp c3op).1 = .finished (.error .failedStatus) ∧
    (UsbOperation.step chipInfoFromOp c3op).1 ≠ .finished (.error .tagMismatch) := by
  decide

/-- Claim C3 (amended): in the `Finish` state, if the parsed CSW's tag
differs from the CBW's tag and its status is Success, the step emits
`Finished(Err(TagMismatch))`; when the status is Failed, `FailedStatus`
takes precedence over the tag check. -/
theorem c3_tag_mismatch_amended {α : Type}
    (fromOp : List Nat → CommandStatus → Except UsbOperationError α)
    (op : UsbOperation) (csw : CommandStatus)
    (hn : op.next = .finish)
    (hp : CommandStatus.from_bytes op.command_bytes = .ok csw)
    (hs : csw.status = .SUCCESS)
    (ht : csw.tag ≠ op.command.tag) :
    (UsbOperation.step fromOp op).1 = .finished (.error .tagMismatch) := by
  simp only [UsbOperation.step, hn, hp]
  rw [if_neg (by simp [hs]), if_neg ht]

/-- Like `c3op` but with status Success: the amended claim's hypotheses hold. -/
def c3opW : UsbOperation :=
  { command := CommandBlock.chip_info 5,
    command_bytes := CommandStatus.to_bytes ⟨6, 0, .SUCCESS⟩ ++ List.replicate 18 0,
    data := .inband (List.replicate 16 0),
    next := .finish }

/-- Witness for the amended C3 at a concrete mismatched-tag, Success-status
state. -/
theorem c3_tag_mismatch_amended_witness :
    (UsbOperation.step chipInfoFromOp c3opW).1 = .finished (.error .tagMismatch) :=
  c3_tag_mismatch_amended chipInfoFromOp c3opW ⟨6, 0, .SUCCESS⟩ rfl (by decide)
    rfl (by decide)

/-- Claim C8: for a transfer-oriented operation reaching `Finish` with a
well-formed CSW whose tag matches and whose status is Success, the result is
`Ok(Transferred(transfer_length - residue))` when
`residue ≤ transfer_length`, and `Err(ReplyParseFailure)` when
`residue > transfer_length`. -/
theorem c8_transferred_result (op : UsbOperation) (csw : CommandStatus)
    (hn : op.next = .finish)
    (hp : CommandStatus.from_bytes op.command_bytes = .ok csw)
    (ht : csw.tag = op.command.tag)
    (hs : csw.status = .SUCCESS)
    (hl : op.command.transfer_length ≤ (io_data op).length) :
    (UsbOperation.step transferredFromOp op).1 =
      .finished (if csw.residue ≤ op.command.transfer_length
        then .ok (op.command.transfer_length - csw.residue)
        else .error .replyParseFailure) := by
  simp only [UsbOperation.step, hn, hp]
  rw [if_neg (by simp [hs]), if_pos ht]
  have hlen : ((io_data op).take op.command.transfer_length).length
      = op.command.transfer_length := by
    simp only [List.length_take]; omega
  unfold transferredFromOp
  rw [hlen]
  rcases le_or_lt csw.residue op.command.transfer_length with h | h
  · rw [if_neg (by omega), if_pos h]
  · rw [if_pos h, if_neg (by omega)]

/-- One-sector `write_lba` operation at `Finish` with a matching-tag,
Success, zero-residue CSW. -/
def c8op : UsbOperation :=
  { command := CommandBlock.write_lba 3 0 1,
    command_bytes := CommandStatus.to_bytes ⟨3, 0, .SUCCESS⟩ ++ List.replicate 18 0,
    data := .write (List.replicate 512 7),
    next := .finish }

/-- Witness for C8 at the concrete one-sector write. -/
theorem c8_transferred_result_witness :
    (UsbOperation.step transferredFromOp c8op).1 =
      .finished (if (CommandStatus.mk 3 0 .SUCCESS).residue ≤ c8op.command.transfer_length
        then .ok (c8op.command.transfer_length - (CommandStatus.mk 3 0 .SUCCESS).residue)
        else .error .replyParseFailure) :=
  c8_transferred_result c8op ⟨3, 0, .SUCCESS⟩ rfl (by decide) rfl rfl
    (by norm_num [c8op, io_data, CommandBlock.write_lba])

/-- Claim C9: for sector-aligned buffers the `read_lba`/`write_lba`
operation constructors accept the buffer (no error) and set the CBW sector
count to `(len / 512) as u16`, i.e. `(len / 512) % 2^16`, so the encoded
`cd_length` and `transfer_length` describe only the truncated sector count;
for buffers of at least 2^16 sectors the declared transfer_length is
strictly smaller than the buffer. -/
theorem c9_lba_truncation (tag start : Nat) (d : List Nat)
    (h : d.length % 512 = 0) :
    ∃ opR opW,
      read_lba tag start d = some opR ∧
      write_lba tag start d = some opW ∧
      opR.command.cd_length = d.length / 512 % 65536 ∧
      opR.command.transfer_length = d.length / 512 % 65536 * 512 ∧
      opW.command.cd_length = d.length / 512 % 65536 ∧
      opW.command.transfer_length = d.length / 512 % 65536 * 512 ∧
      (65536 * 512 ≤ d.length → opR.command.transfer_length < d.length) := by
  refine ⟨UsbOperation.new_read
      (CommandBlock.read_lba tag start (d.length / 512 % 65536)) d,
    UsbOperation.new_write
      (CommandBlock.write_lba tag start (d.length / 512 % 65536)) d,
    ?_, ?_, rfl, rfl, rfl, rfl, ?_⟩
  · rw [read_lba, if_pos h]
  · rw [write_lba, if_pos h]
  · intro hbig
    have h1 : d.length / 512 % 65536 < 65536 := Nat.mod_lt _ (by norm_num)
    show d.length / 512 % 65536 * 512 < d.length
    omega

/-- Witness for C9 at a 2^16-sector (33554432-byte) buffer, where the
truncation is observable. -/
theorem c9_lba_truncation_witness :
    ∃ opR opW,
      read_lba 1 0 (List.replicate 33554432 0) = some opR ∧
      write_lba 1 0 (List.replicate 33554432 0) = some opW ∧
      opR.command.cd_length = (List.replicate 33554432 (0 : Nat)).length / 512 % 65536 ∧
      opR.command.transfer_length
        = (List.replicate 33554432 (0 : Nat)).length / 512 % 65536 * 512 ∧
      opW.command.cd_length = (List.replicate 33554432 (0 : Nat)).length / 512 % 65536 ∧
      opW.command.transfer_length
        = (List.replicate 33554432 (0 : Nat)).length / 512 % 65536 * 512 ∧
      (65536 * 512 ≤ (List.replicate 33554432 (0 : Nat)).length →
        opR.command.transfer_length < (List.replicate 33554432 (0 : Nat)).length) :=
  c9_lba_truncation 1 0 (List.replicate 33554432 0) (by rw [List.length_replicate])

/-- Claim C10: after a `UsbOperation` emits `Finished` its phase is reset to
`CommandBlock` — a further `step()` does not emit `Finished` again but
re-emits `WriteBulk` with the re-encoded 31-byte CBW of the same command
(hence the same tag); by contrast a `MaskRomOperation` in `Done` is
absorbing: `step()` emits `Finished(Ok(()))` and stays in `Done`. -/
theorem c10_finish_restart_maskrom_absorbing {α : Type}
    (fromOp : List Nat → CommandStatus → Except UsbOperationError α)
    (op : UsbOperation) (mop : MaskRomOperation)
    (hn : op.next = .finish) (hlen : op.command_bytes.length = 31)
    (hm : mop.steps = .done) :
    (UsbOperation.step fromOp op).2.next = .commandBlock ∧
    (UsbOperation.step fromOp op).2.command = op.command ∧
    (UsbOperation.step fromOp ((UsbOperation.step fromOp op).2)).1
      = .writeBulk (cbwFields op.command
          ++ (UsbOperation.step fromOp op).2.command_bytes.drop 24) ∧
    (∀ r, (UsbOperation.step fromOp ((UsbOperation.step fromOp op).2)).1
      ≠ .finished r) ∧
    (maskRomStep mop).1 = .finished (.ok ()) ∧
    (maskRomStep mop).2.steps = .done := by
  have h2 : (UsbOperation.step fromOp op).2 = { op with next := .commandBlock } := by
    simp only [UsbOperation.step, hn]
  have hemit : (UsbOperation.step fromOp
        ({ op with next := Operation.commandBlock })).1
      = .writeBulk (cbwFields op.command ++ op.command_bytes.drop 24) := by
    simp only [UsbOperation.step, CommandBlock.to_bytes]
    congr 1
    apply List.take_of_length_le
    simp only [List.length_append, cbwFields_length, List.length_drop, hlen,
      COMMAND_BLOCK_BYTES]
    omega
  refine ⟨by rw [h2], by rw [h2], ?_, ?_, ?_, ?_⟩
  · rw [h2, hemit]
  · intro r
    rw [h2, hemit]
    intro hcontra
    exact UsbStep.noConfusion hcontra
  · simp only [maskRomStep, hm]
  · simp only [maskRomStep, hm]

/-- Fresh-scratch chip-info operation parked at `Finish`. -/
def c10op : UsbOperation :=
  { command := CommandBlock.chip_info 9,
    command_bytes := List.replicate 31 0,
    data := .inband (List.replicate 16 0),
    next := .finish }

/-- MaskRom operation in its terminal `Done` state. -/
def c10mop : MaskRomOperation := ⟨0, [], 0x471, .done⟩

/-- Witness for C10 at concrete states. -/
theorem c10_finish_restart_maskrom_absorbing_witness :
    (UsbOperation.step chipInfoFromOp c10op).2.next = .commandBlock ∧
    (UsbOperation.step chipInfoFromOp c10op).2.command = c10op.command ∧
    (UsbOperation.step chipInfoFromOp
        ((UsbOperation.step chipInfoFromOp c10op).2)).1
      = .writeBulk (cbwFields c10op.command
          ++ (UsbOperation.step chipInfoFromOp c10op).2.command_bytes.drop 24) ∧
    (∀ r, (UsbOperation.step chipInfoFromOp
        ((UsbOperation.step chipInfoFromOp c10op).2)).1 ≠ .finished r) ∧
    (maskRomStep c10mop).1 = .finished (.ok ()) ∧
    (maskRomStep c10mop).2.steps = .done :=
  c10_finish_restart_maskrom_absorbing chipInfoFromOp c10op c10mop rfl
    (by decide) rfl

/-! ## Block-device I/O adapter (`device.rs`, `DeviceIOInner`)

The device behind `read_lba`/`write_lba` is modelled as a total byte map
`dev : Nat → Nat` (a non-faulty device: transport errors are out of scope),
and every `read_lba`/`write_lba` the adapter issues is recorded in a command
log. -/

def SECTOR_SIZE : Nat := 512
def MAXIO_SIZE : Nat := 128 * SECTOR_SIZE

/-- `BufferState` from `device.rs`. -/
inductive BufferState where
  | invalid
  | valid
  | dirty
deriving DecidableEq

/-- `DeviceIOInner` from `device.rs` (the transport handle is replaced by
the explicit `dev` argument of the operations). -/
structure DeviceIOInner where
  offset : Nat
  size : Nat
  buffer : List Nat
  state : BufferState
deriving DecidableEq

/-- `IOOperation` from `device.rs`. -/
inductive IOOperation where
  | direct (len : Nat)
  | buffered (offset len : Nat)
  | eof
deriving DecidableEq

/-- A bulk command issued to the device facade. -/
inductive Cmd where
  | readLba (sector len : Nat)
  | writeLba (sector : Nat) (data : List Nat)
deriving DecidableEq

/-- The adapter's I/O error (`std::io::Error::other("Trying to write past
end of area")`). -/
inductive IOError where
  | writePastEnd
deriving DecidableEq

/-- `std::io::SeekFrom` (`End` renamed, `end` being reserved). -/
inductive SeekFrom where
  | start (offset : Nat)
  | fromEnd (offset : Int)
  | current (offset : Int)
deriving DecidableEq

/-- Bytes of the device at `[addr, addr + len)`. -/
def readDev (dev : Nat → Nat) (addr len : Nat) : List Nat :=
  (List.range len).map fun i => dev (addr + i)

/-- `buffer[i..i + src.len()].copy_from_slice(src)` on lists. -/
def listWriteAt (dst : List Nat) (i : Nat) (src : List Nat) : List Nat :=
  dst.take i ++ src ++ dst.drop (i + src.length)

namespace DeviceIOInner

/-- `DeviceIOInner::current_sector`. -/
def current_sector (st : DeviceIOInner) : Nat := st.offset / SECTOR_SIZE

/-- `DeviceIOInner::pre_io` (device.rs lines 236-270): Eof past the end;
Direct for sector-aligned offsets and at least one sector requested
(`len.min(left) / SECTOR * SECTOR` capped at `MAXIO_SIZE`); otherwise
Buffered, loading the current sector first iff the buffer is Invalid. -/
def pre_io (dev : Nat → Nat) (st : DeviceIOInner) (len : Nat) :
    IOOperation × DeviceIOInner × List Cmd :=
  if st.size ≤ st.offset then (.eof, st, [])
  else if st.offset % SECTOR_SIZE = 0 ∧ SECTOR_SIZE ≤ len then
    (.direct (min (min len (st.size - st.offset) / SECTOR_SIZE * SECTOR_SIZE)
        MAXIO_SIZE), st, [])
  else if st.state = .invalid then
    (.buffered (st.offset % SECTOR_SIZE)
        (min len (SECTOR_SIZE - st.offset % SECTOR_SIZE)),
     { st with buffer := readDev dev (st.current_sector * SECTOR_SIZE) SECTOR_SIZE,
               state := .valid },
     [.readLba st.current_sector SECTOR_SIZE])
  else
    (.buffered (st.offset % SECTOR_SIZE)
        (min len (SECTOR_SIZE - st.offset % SECTOR_SIZE)), st, [])

/-- `DeviceIOInner::flush_buffer`: a Dirty buffer is written back to the
current sector and marked Valid; otherwise a no-op. -/
def flush_buffer (st : DeviceIOInner) : DeviceIOInner × List Cmd :=
  if st.state = .dirty then
    ({ st with state := .valid }, [.writeLba st.current_sector st.buffer])
  else (st, [])

/-- `DeviceIOInner::post_io`: crossing the sector edge flushes and marks
Invalid, then the offset advances. -/
def post_io (st : DeviceIOInner) (len : Nat) : Nat × DeviceIOInner × List Cmd :=
  if SECTOR_SIZE - st.offset % SECTOR_SIZE ≤ len then
    let r := flush_buffer st
    (len, { r.1 with state := .invalid, offset := r.1.offset + len }, r.2)
  else (len, { st with offset := st.offset + len }, [])

/-- `DeviceIOInner::do_write` (device.rs lines 344-357). -/
def do_write (dev : Nat → Nat) (st : DeviceIOInner) (buf : List Nat) :
    Except IOError Nat × DeviceIOInner × List Cmd :=
  match pre_io dev st buf.length with
  | (.direct len, st1, c1) =>
    let r := post_io st1 len
    (.ok r.1, r.2.1, c1 ++ [Cmd.writeLba st1.current_sector (buf.take len)] ++ r.2.2)
  | (.buffered off len, st1, c1) =>
    let st2 := { st1 with buffer := listWriteAt st1.buffer off (buf.take len),
                          state := .dirty }
    let r := post_io st2 len
    (.ok r.1, r.2.1, c1 ++ r.2.2)
  | (.eof, st1, c1) => (.error .writePastEnd, st1, c1)

/-- `DeviceIOInner::do_read` (device.rs lines 359-369); the second component
is the caller's buffer after the read. -/
def do_read (dev : Nat → Nat) (st : DeviceIOInner) (buf : List Nat) :
    Except IOError Nat × List Nat × DeviceIOInner × List Cmd :=
  match pre_io dev st buf.length with
  | (.direct len, st1, c1) =>
    let r := post_io st1 len
    (.ok r.1, readDev dev (st1.current_sector * SECTOR_SIZE) len ++ buf.drop len,
     r.2.1, c1 ++ [Cmd.readLba st1.current_sector len] ++ r.2.2)
  | (.buffered off len, st1, c1) =>
    let r := post_io st1 len
    (.ok r.1, (st1.buffer.drop off).take len ++ buf.drop len, r.2.1, c1 ++ r.2.2)
  | (.eof, st1, c1) =>
    let r := post_io st1 0
    (.ok r.1, buf, r.2.1, c1 ++ r.2.2)

/-- `DeviceIOInner::do_seek` (device.rs lines 320-342).  The body only
computes and assigns the clamped offset: it performs no device call (the
return type carries no command log because the source issues none) and it
does not touch `buffer` or `state`. -/
def do_seek (st : DeviceIOInner) (pos : SeekFrom) : Nat × DeviceIOInner :=
  let newOffset :=
    match pos with
    | .start o => min st.size o
    | .fromEnd o => if 0 < o then st.size else st.size - o.natAbs
    | .current o =>
      if 0 < o then min (st.offset + o.toNat) st.size
      else st.offset - o.natAbs
  (newOffset, { st with offset := newOffset })

end DeviceIOInner

/-- Claim C2 (failing input, supporting the code-bug verdict): at offset 100
(sector 0) with a Dirty buffer, seeking to offset 1000 (sector 1) leaves the
cache state Dirty and issues no `write_lba` — `do_seek` only reassigns the
clamped offset (its type carries no command log because the source body
performs no device call), so the buffer is still marked Dirty for the old
sector after the sector changed, contradicting the claim (and the
`BufferState` comments in the source, which tie buffer contents to the
current offset). -/
theorem c2_seek_dirty_unflushed :
    DeviceIOInner.do_seek ⟨100, 2048, List.replicate 512 7, .dirty⟩ (.start 1000)
      = (1000, ⟨1000, 2048, List.replicate 512 7, .dirty⟩) ∧
    DeviceIOInner.current_sector ⟨100, 2048, List.replicate 512 7, .dirty⟩ = 0 ∧
    DeviceIOInner.current_sector ⟨1000, 2048, List.replicate 512 7, .dirty⟩ = 1 ∧
    (DeviceIOInner.do_seek ⟨100, 2048, List.replicate 512 7, .dirty⟩
        (.start 1000)).2.state = .dirty :=
  ⟨rfl, rfl, rfl, rfl⟩

/-- Claim C4: `pre_io` returns Eof iff `offset ≥ size`; otherwise Direct
when `offset % 512 = 0` and `len ≥ 512`, with length
`min(len, size - offset, 65536)` truncated down to a multiple of 512;
otherwise Buffered with offset `offset % 512` and length
`min(len, 512 - offset % 512)`, loading the current sector via `read_lba`
and setting the state Valid first iff the state was Invalid. -/
theorem c4_pre_io_spec (dev : Nat → Nat) (st : DeviceIOInner) (len : Nat) :
    DeviceIOInner.pre_io dev st len =
      if st.size ≤ st.offset then (.eof, st, [])
      else if st.offset % 512 = 0 ∧ 512 ≤ len then
        (.direct (min (min len (st.size - st.offset)) 65536 / 512 * 512), st, [])
      else if st.state = .invalid then
        (.buffered (st.offset % 512) (min len (512 - st.offset % 512)),
         { st with buffer := readDev dev (st.offset / 512 * 512) 512,
                   state := .valid },
         [.readLba (st.offset / 512) 512])
      else
        (.buffered (st.offset % 512) (min len (512 - st.offset % 512)), st, []) := by
  simp only [DeviceIOInner.pre_io, DeviceIOInner.current_sector, MAXIO_SIZE,
    SECTOR_SIZE]
  by_cases h1 : st.size ≤ st.offset
  · rw [if_pos h1, if_pos h1]
  · rw [if_neg h1, if_neg h1]
    by_cases h2 : st.offset % 512 = 0 ∧ 512 ≤ len
    · rw [if_pos h2, if_pos h2]
      have harith : min (min len (st.size - st.offset) / 512 * 512) (128 * 512)
          = min (min len (st.size - st.offset)) 65536 / 512 * 512 := by
        omega
      rw [harith]
    · rw [if_neg h2, if_neg h2]

/-- Claim C7: with `offset ≥ size` and a non-empty buffer, a write returns
the write-past-end error leaving the state (offset and cache state included)
unchanged and issuing no command, while a read in the same state returns 0
bytes read, also leaving the state unchanged. -/
theorem c7_write_read_past_end (dev : Nat → Nat) (st : DeviceIOInner)
    (buf : List Nat) (h : st.size ≤ st.offset) (hb : buf ≠ []) :
    DeviceIOInner.do_write dev st buf = (.error .writePastEnd, st, []) ∧
    DeviceIOInner.do_read dev st buf = (.ok 0, buf, st, []) := by
  have hpre : DeviceIOInner.pre_io dev st buf.length = (.eof, st, []) := by
    unfold DeviceIOInner.pre_io
    rw [if_pos h]
  have hpost : DeviceIOInner.post_io st 0 = (0, st, []) := by
    unfold DeviceIOInner.post_io
    rw [if_neg (by
      have hm : st.offset % 512 < 512 := Nat.mod_lt _ (by norm_num)
      simp only [SECTOR_SIZE]
      omega)]
    rfl
  constructor
  · unfold DeviceIOInner.do_write
    rw [hpre]
  · unfold DeviceIOInner.do_read
    rw [hpre]
    simp [hpost]

/-- Witness for C7 at a concrete at-end state. -/
theorem c7_write_read_past_end_witness :
    DeviceIOInner.do_write (fun _ => 0) ⟨2048, 2048, [], .valid⟩ [1]
      = (.error .writePastEnd, ⟨2048, 2048, [], .valid⟩, []) ∧
    DeviceIOInner.do_read (fun _ => 0) ⟨2048, 2048, [], .valid⟩ [1]
      = (.ok 0, [1], ⟨2048, 2048, [], .valid⟩, []) :=
  c7_write_read_past_end (fun _ => 0) ⟨2048, 2048, [], .valid⟩ [1]
    (by norm_num) (by simp)

end Rockusb
